import Mathlib

/-!
A shallow embedding of the `pain` language front end (src/lexer.py,
src/parser.py, src/main.py): a scanner that turns a source string into
tokens, and a recursive-descent / precedence-climbing parser that turns the
token stream into syntax trees.  Python machine state (the scanner's cursor,
the parser's one-token lookahead/lookback) is passed explicitly; Python
exceptions are the error side of `Except`.  The recursion of the scanner's
whitespace skipping is indexed by the number of unread characters (its
termination measure in the source); the parser's mutual recursion is indexed
by explicit fuel, with a distinguished `outOfFuel` error that no run with
sufficient fuel produces.
-/

namespace Pain

/-- Token kinds, one per member of `lexer.TokenType`. -/
inductive TokenType where
  | LeftParen | RightParen | LeftBrace | RightBrace | LeftBracket | RightBracket
  | Plus | PlusEqual | Minus | MinusEqual
  | Star | StarEqual | Slash | SlashEqual
  | Carrot | CarrotEqual
  | Equal | EqualEqual
  | GreaterThan | GreaterThanEqual | LessThan | LessThanEqual
  | And | Or | Not
  | String | Int | Float | Identifier
  | Var | Const | Function | Class | If | For | While | Return
  | Colon | Semicolon | Comma | Illegal | Eof
  deriving DecidableEq

/-- `lexer.Token`: a kind tag plus the exact lexeme text. -/
structure Token where
  type : TokenType
  lexeme : String
  deriving DecidableEq

/-- The exceptions a run of the front end can surface: `parser.UnexpectedToken`
carrying the data interpolated into its message (scanner row and column, the
expected description, the offending token's lexeme); the Python `IndexError`
raised by `Lexer.curr` on an out-of-range index; the Python `ValueError`
raised by `float()` on a malformed literal.  `outOfFuel` is an artifact of the
fuel-indexed embedding of the parser's recursion and is never the value of a
run given sufficient fuel. -/
inductive PainError where
  | unexpectedToken (row col : Nat) (expected got : String)
  | indexError
  | valueError (arg : String)
  | outOfFuel
  deriving DecidableEq

/-- The scanner state: the fields of class `Lexer` (`source`, `curr_index`,
`row`, `col`), with the immutable source held as its list of characters. -/
structure Lexer where
  source : List Char
  curr_index : Nat
  row : Nat
  col : Nat
  deriving DecidableEq

/-- `Lexer.__init__(source)`. -/
def lexInit (s : String) : Lexer := ⟨s.data, 0, 0, 0⟩

/-- `Lexer.curr`: `self.source[self.curr_index]`.  `none` is the Python
`IndexError` raised when the index is out of range. -/
def Lexer.curr (self : Lexer) : Option Char := self.source.get? self.curr_index

/-- `Lexer.advance`. -/
def Lexer.advance (self : Lexer) : Lexer :=
  { self with curr_index := self.curr_index + 1, col := self.col + 1 }

@[simp] theorem Lexer.advance_source (self : Lexer) : self.advance.source = self.source := rfl

@[simp] theorem Lexer.advance_curr_index (self : Lexer) :
    self.advance.curr_index = self.curr_index + 1 := rfl

/-- `Lexer.is_at_end`: `curr_index >= len(source)`. -/
def Lexer.is_at_end (self : Lexer) : Bool :=
  self.source.length ≤ self.curr_index

/-- The loop of `Lexer.a_string` (`while not self.is_at_end(): ...`).  The
`Nat` argument is the number of unread characters, the loop's termination
measure; at `0` the lexer is at end of input and the loop stops as in the
source (`Lexer.a_string` always passes the exact count). -/
def Lexer.a_string_loop : Nat → Lexer → String → String × Lexer
  | 0, self, result => (result, self)
  | n + 1, self, result =>
    if h : self.curr_index < self.source.length then
      let c := self.source.get ⟨self.curr_index, h⟩
      if c = '"' then (result, self)
      else a_string_loop n self.advance (result.push c)
    else (result, self)

/-- `Lexer.a_string`: skip the opening quote, consume characters until a
closing quote or end of input, then advance once more (past the closing
quote, or past the end when the string is unterminated). -/
def Lexer.a_string (self : Lexer) : String × Lexer :=
  let st := self.advance
  let (result, st1) := a_string_loop (st.source.length - st.curr_index) st ""
  (result, st1.advance)

/-- The loop of `Lexer.a_number`.  A dot is always consumed and marks the
result a float; a non-digit, non-dot character stops the scan.  Python's
`str.isnumeric` on the single characters this scanner reads is `Char.isDigit`.
The `Nat` argument is the unread-character count, as in `a_string_loop`. -/
def Lexer.a_number_loop : Nat → Lexer → String → Bool → String × Bool × Lexer
  | 0, self, result, is_float => (result, is_float, self)
  | n + 1, self, result, is_float =>
    if h : self.curr_index < self.source.length then
      let c := self.source.get ⟨self.curr_index, h⟩
      if c = '.' then a_number_loop n self.advance (result.push c) true
      else if ¬ c.isDigit then (result, is_float, self)
      else a_number_loop n self.advance (result.push c) is_float
    else (result, is_float, self)

/-- `Lexer.a_number`. -/
def Lexer.a_number (self : Lexer) : String × Bool × Lexer :=
  a_number_loop (self.source.length - self.curr_index) self "" false

/-- The loop of `Lexer.an_identifier`: a maximal alphanumeric run (Python's
`str.isalnum` on the characters this scanner reads is `Char.isAlphanum`). -/
def Lexer.an_identifier_loop : Nat → Lexer → String → String × Lexer
  | 0, self, result => (result, self)
  | n + 1, self, result =>
    if h : self.curr_index < self.source.length then
      let c := self.source.get ⟨self.curr_index, h⟩
      if ¬ c.isAlphanum then (result, self)
      else an_identifier_loop n self.advance (result.push c)
    else (result, self)

/-- `Lexer.an_identifier`. -/
def Lexer.an_identifier (self : Lexer) : String × Lexer :=
  an_identifier_loop (self.source.length - self.curr_index) self ""

/-- The two-character lookahead pattern `Lexer.next` repeats for each of
`= > < + - * / ^`: advance past the first character, then inspect
`self.curr()` — which raises `IndexError` at end of input — and emit the
compound token when the next character is `'='`, otherwise the bare token. -/
def Lexer.lookahead_equal (self : Lexer) (compound : TokenType) (clex : String)
    (single : TokenType) (slex : String) : Except PainError (Token × Lexer) :=
  let st := self.advance
  match st.curr with
  | none => .error .indexError
  | some c =>
    if c = '=' then .ok (⟨compound, clex⟩, st.advance)
    else .ok (⟨single, slex⟩, st)

/-- `Lexer.next`, indexed by the number of unread characters (the measure of
its whitespace-skipping self-recursion).  At `0` the lexer is at end of input
and the end-of-input token is returned, as in the source; `Lexer.next` always
passes the exact count.  The `is_at_end` guard is expressed as the cursor
read coming back empty (`curr_index >= len(source)` and
`self.source[self.curr_index]` failing coincide).  The branches follow the
source's `match` arms in order.  The newline arm is `advance` followed by
`col = 0; row += 1`. -/
def Lexer.next_go : Nat → Lexer → Except PainError (Token × Lexer)
  | 0, self => .ok (⟨.Eof, "Eof"⟩, self)
  | n + 1, self =>
    match self.curr with
    | none => .ok (⟨.Eof, "Eof"⟩, self)
    | some c =>
      if c = '(' then .ok (⟨.LeftParen, "("⟩, self.advance)
      else if c = ')' then .ok (⟨.RightParen, ")"⟩, self.advance)
      else if c = '[' then .ok (⟨.LeftBrace, "["⟩, self.advance)
      else if c = ']' then .ok (⟨.RightBrace, "]"⟩, self.advance)
      else if c = '\x7b' then .ok (⟨.LeftBracket, "\x7b"⟩, self.advance)
      else if c = '\x7d' then .ok (⟨.RightBracket, "\x7d"⟩, self.advance)
      else if c = '=' then self.lookahead_equal .EqualEqual "==" .Equal "="
      else if c = '>' then self.lookahead_equal .GreaterThanEqual ">=" .GreaterThan ">"
      else if c = '<' then self.lookahead_equal .LessThanEqual "<=" .LessThan "<"
      else if c = '+' then self.lookahead_equal .PlusEqual "+=" .Plus "+"
      else if c = '-' then self.lookahead_equal .MinusEqual "-=" .Minus "-"
      else if c = '*' then self.lookahead_equal .StarEqual "*=" .Star "*"
      else if c = '/' then self.lookahead_equal .SlashEqual "/=" .Slash "/"
      else if c = '^' then self.lookahead_equal .CarrotEqual "^=" .Carrot "^"
      else if c = '"' then
        let (result, st1) := self.a_string
        .ok (⟨.String, result⟩, st1)
      else if c.isDigit then
        let (result, is_float, st1) := self.a_number
        if is_float then .ok (⟨.Float, result⟩, st1)
        else .ok (⟨.Int, result⟩, st1)
      else if c = ':' then .ok (⟨.Colon, ":"⟩, self.advance)
      else if c = ';' then .ok (⟨.Semicolon, ";"⟩, self.advance)
      else if c = '\n' then
        next_go n { self with curr_index := self.curr_index + 1, col := 0, row := self.row + 1 }
      else if c = ',' then .ok (⟨.Comma, ","⟩, self.advance)
      else if c = ' ' then next_go n self.advance
      else if c.isAlpha then
        let (identifier, st1) := self.an_identifier
        match identifier with
        | "and" => .ok (⟨.And, identifier⟩, st1)
        | "or" => .ok (⟨.Or, identifier⟩, st1)
        | "if" => .ok (⟨.If, identifier⟩, st1)
        | "var" => .ok (⟨.Var, identifier⟩, st1)
        | "const" => .ok (⟨.Const, identifier⟩, st1)
        | "function" => .ok (⟨.Function, identifier⟩, st1)
        | "class" => .ok (⟨.Class, identifier⟩, st1)
        | "for" => .ok (⟨.For, identifier⟩, st1)
        | "while" => .ok (⟨.While, identifier⟩, st1)
        | "return" => .ok (⟨.Return, identifier⟩, st1)
        | _ => .ok (⟨.Identifier, identifier⟩, st1)
      else .ok (⟨.Illegal, String.singleton c⟩, self.advance)

/-- `Lexer.next`. -/
def Lexer.next (self : Lexer) : Except PainError (Token × Lexer) :=
  next_go (self.source.length - self.curr_index) self

/-- Syntax tree nodes, one constructor per AST class of `parser.py`.  The
float leaf carries the lexeme accepted by `float()`: the lexemes reaching it
are digit-and-dot strings, for which the accepted text determines the value,
and IEEE-754 arithmetic is outside this model. -/
inductive Expression where
  | IntExpr (val : Nat)
  | StringExpr (val : String)
  | FloatExpr (val : String)
  | IdentifierExpr (val : String)
  | BinaryExpr (lhs : Expression) (op : String) (rhs : Expression)
  | BlockExpr (exprs : List Expression)
  | VarExpr (lhs rhs : Expression)
  | ConstExpr (lhs rhs : Expression)
  | FunctionExpr (identifier : Expression) (params : List Expression) (body : Expression)
  | ReturnExpr (expr : Expression)

/-- `type(e) is IdentifierExpr`, the parse-time check of `parse_var` and
`parse_const`. -/
def Expression.isIdent : Expression → Bool
  | .IdentifierExpr _ => true
  | _ => false

/-- `parser.Associativity`. -/
inductive Associativity where
  | Left | Right
  deriving DecidableEq

/-- `parser.Operator`. -/
structure Operator where
  op : String
  precedence : Nat
  associativity : Associativity
  deriving DecidableEq

/-- The dict `ALLOWED_OPS`, embedded as the lookup function of its key-value
pairs in source order (`s ∈ ALLOWED_OPS` is `(ALLOWED_OPS s).isSome` and
`ALLOWED_OPS[s]` its value).  Note that the source's `">="` entry carries
`op = ">"`; the parser folds the token lexeme, not this field, into trees. -/
def ALLOWED_OPS (s : String) : Option Operator :=
  if s = "or" then some ⟨"or", 0, .Left⟩
  else if s = "and" then some ⟨"and", 0, .Left⟩
  else if s = "not" then some ⟨"not", 0, .Left⟩
  else if s = "==" then some ⟨"==", 0, .Left⟩
  else if s = "<" then some ⟨"<", 1, .Left⟩
  else if s = "<=" then some ⟨"<=", 1, .Left⟩
  else if s = ">" then some ⟨">", 1, .Left⟩
  else if s = ">=" then some ⟨">", 1, .Left⟩
  else if s = "+" then some ⟨"+", 6, .Left⟩
  else if s = "-" then some ⟨"-", 6, .Left⟩
  else if s = "*" then some ⟨"*", 7, .Left⟩
  else if s = "/" then some ⟨"/", 7, .Left⟩
  else if s = "^" then some ⟨"^", 8, .Right⟩
  else none

/-- The parser state: the fields of class `Parser` (`lexer`, `curr_token`,
`prev_token`); `parsed_trees` is threaded through `parse` as an accumulator
argument instead of a field. -/
structure Parser where
  lexer : Lexer
  curr_token : Token
  prev_token : Token
  deriving DecidableEq

/-- `Parser.__init__`: prime the one-token lookahead by pulling a first token
(this pull can itself raise, escaping the constructor). -/
def parserInit (lexer : Lexer) : Except PainError Parser := do
  let (tok, lx) ← lexer.next
  return ⟨lx, tok, tok⟩

/-- `Parser.advance`. -/
def Parser.advance (self : Parser) : Except PainError Parser := do
  let (tok, lx) ← self.lexer.next
  return ⟨lx, tok, self.curr_token⟩

/-- `Parser.is_at_end`. -/
def Parser.is_at_end (self : Parser) : Bool :=
  self.curr_token.type = .Eof

/-- `Parser.match` (`match` is reserved in Lean).  The source takes `*types`,
but every call site passes exactly one token type. -/
def Parser.matchTok (self : Parser) (t : TokenType) : Except PainError (Bool × Parser) :=
  if self.curr_token.type = t then do
    let st ← self.advance
    return (true, st)
  else return (false, self)

/-- `Parser.peek`. -/
def Parser.peek (self : Parser) (t : TokenType) : Bool :=
  self.curr_token.type = t

/-- `Parser.unexpected_token`: raises `UnexpectedToken` with the scanner's
current row and column, the expected description, and the current token's
lexeme interpolated into the message.  The source's default argument is
`"primary expression"`, passed explicitly here at the one bare call site. -/
def Parser.unexpected_token (self : Parser) (token_str : String) : PainError :=
  .unexpectedToken self.lexer.row self.lexer.col token_str self.curr_token.lexeme

/-- Models the Python `int` constructor on the all-digit lexemes that
`Lexer.a_number` attaches to `Int` tokens. -/
def pyInt (s : String) : Nat :=
  s.data.foldl (fun acc c => acc * 10 + (c.toNat - 48)) 0

/-- Models acceptance by the Python `float` constructor, restricted to the
lexemes `Lexer.a_number` attaches to `Float` tokens: nonempty strings of
digits and dots that begin with a digit.  Among those, `float` succeeds
exactly when at most one dot occurs (signs, exponents, underscores and
inf/nan spellings never occur in such lexemes); on rejection it raises
`ValueError`. -/
def pyFloatAccepts (s : String) : Bool :=
  (s.data.all fun c => c.isDigit || c = '.') &&
    (s.data.any fun c => c.isDigit) &&
    (s.data.filter fun c => c = '.').length ≤ 1

mutual

/-- `Parser.parse_expr`: precedence climbing with a minimum-precedence
threshold (`0` at the top call, which every `self.parse_expr()` call site
uses). -/
def parse_expr (fuel min_precedence : Nat) (self : Parser) :
    Except PainError (Expression × Parser) :=
  match fuel with
  | 0 => .error .outOfFuel
  | fuel + 1 => do
    let (lhs, st) ← parse_primary fuel self
    parse_expr_loop fuel min_precedence lhs st

/-- The `while not self.is_at_end()` loop of `Parser.parse_expr`: break when
the current lexeme is not an `ALLOWED_OPS` key or its precedence is below the
threshold; otherwise consume it, parse the right-hand side with the new
threshold (the operator's precedence, incremented when it is
right-associative), and fold into a `BinaryExpr` carrying the lexeme. -/
def parse_expr_loop (fuel min_precedence : Nat) (lhs : Expression) (self : Parser) :
    Except PainError (Expression × Parser) :=
  match fuel with
  | 0 => .error .outOfFuel
  | fuel + 1 =>
    if self.is_at_end then .ok (lhs, self)
    else
      let op := self.curr_token.lexeme
      match ALLOWED_OPS op with
      | none => .ok (lhs, self)
      | some curr_op =>
        if curr_op.precedence < min_precedence then .ok (lhs, self)
        else do
          let next_min_precedence :=
            if curr_op.associativity = .Right then curr_op.precedence + 1
            else curr_op.precedence
          let st ← self.advance
          let (rhs, st1) ← parse_expr fuel next_min_precedence st
          parse_expr_loop fuel min_precedence (.BinaryExpr lhs op rhs) st1

/-- `Parser.parse_primary`. -/
def parse_primary (fuel : Nat) (self : Parser) : Except PainError (Expression × Parser) :=
  match fuel with
  | 0 => .error .outOfFuel
  | fuel + 1 => parse_int fuel self

/-- `Parser.parse_int`. -/
def parse_int (fuel : Nat) (self : Parser) : Except PainError (Expression × Parser) :=
  match fuel with
  | 0 => .error .outOfFuel
  | fuel + 1 => do
    let (m, st) ← self.matchTok .Int
    if m then .ok (.IntExpr (pyInt st.prev_token.lexeme), st)
    else parse_float fuel st

/-- `Parser.parse_float`: `float(self.prev_token.lexeme)` raises `ValueError`
when the lexeme is not a valid float literal. -/
def parse_float (fuel : Nat) (self : Parser) : Except PainError (Expression × Parser) :=
  match fuel with
  | 0 => .error .outOfFuel
  | fuel + 1 => do
    let (m, st) ← self.matchTok .Float
    if m then
      if pyFloatAccepts st.prev_token.lexeme then .ok (.FloatExpr st.prev_token.lexeme, st)
      else .error (.valueError st.prev_token.lexeme)
    else parse_string fuel st

/-- `Parser.parse_string`. -/
def parse_string (fuel : Nat) (self : Parser) : Except PainError (Expression × Parser) :=
  match fuel with
  | 0 => .error .outOfFuel
  | fuel + 1 => do
    let (m, st) ← self.matchTok .String
    if m then .ok (.StringExpr st.prev_token.lexeme, st)
    else parse_identifier fuel st

/-- `Parser.parse_identifier`. -/
def parse_identifier (fuel : Nat) (self : Parser) : Except PainError (Expression × Parser) :=
  match fuel with
  | 0 => .error .outOfFuel
  | fuel + 1 => do
    let (m, st) ← self.matchTok .Identifier
    if m then .ok (.IdentifierExpr st.prev_token.lexeme, st)
    else parse_var fuel st

/-- `Parser.parse_var`. -/
def parse_var (fuel : Nat) (self : Parser) : Except PainError (Expression × Parser) :=
  match fuel with
  | 0 => .error .outOfFuel
  | fuel + 1 => do
    let (m, st) ← self.matchTok .Var
    if m then do
      let (lhs, st1) ← parse_expr fuel 0 st
      if ¬ lhs.isIdent then .error (st1.unexpected_token "identifier")
      else do
        let (m1, st2) ← st1.matchTok .Equal
        if ¬ m1 then .error (st2.unexpected_token "=")
        else do
          let (rhs, st3) ← parse_expr fuel 0 st2
          let (m2, st4) ← st3.matchTok .Semicolon
          if ¬ m2 then .error (st4.unexpected_token ";")
          else .ok (.VarExpr lhs rhs, st4)
    else parse_const fuel st

/-- `Parser.parse_const`. -/
def parse_const (fuel : Nat) (self : Parser) : Except PainError (Expression × Parser) :=
  match fuel with
  | 0 => .error .outOfFuel
  | fuel + 1 => do
    let (m, st) ← self.matchTok .Const
    if m then do
      let (lhs, st1) ← parse_expr fuel 0 st
      if ¬ lhs.isIdent then .error (st1.unexpected_token "identifier")
      else do
        let (m1, st2) ← st1.matchTok .Equal
        if ¬ m1 then .error (st2.unexpected_token "=")
        else do
          let (rhs, st3) ← parse_expr fuel 0 st2
          let (m2, st4) ← st3.matchTok .Semicolon
          if ¬ m2 then .error (st4.unexpected_token ";")
          else .ok (.ConstExpr lhs rhs, st4)
    else parse_block fuel st

/-- `Parser.parse_block`. -/
def parse_block (fuel : Nat) (self : Parser) : Except PainError (Expression × Parser) :=
  match fuel with
  | 0 => .error .outOfFuel
  | fuel + 1 => do
    let (m, st) ← self.matchTok .LeftBracket
    if m then do
      let (exprs, st1) ← parse_block_loop fuel [] st
      let (m1, st2) ← st1.matchTok .RightBracket
      if ¬ m1 then .error (st2.unexpected_token "\x7d")
      else .ok (.BlockExpr exprs, st2)
    else parse_function_expr fuel st

/-- The expression-collecting loop of `Parser.parse_block`. -/
def parse_block_loop (fuel : Nat) (exprs : List Expression) (self : Parser) :
    Except PainError (List Expression × Parser) :=
  match fuel with
  | 0 => .error .outOfFuel
  | fuel + 1 =>
    if self.is_at_end then .ok (exprs, self)
    else if self.peek .RightBracket then .ok (exprs, self)
    else do
      let (e, st) ← parse_expr fuel 0 self
      parse_block_loop fuel (exprs ++ [e]) st

/-- `Parser.parse_function_expr`. -/
def parse_function_expr (fuel : Nat) (self : Parser) : Except PainError (Expression × Parser) :=
  match fuel with
  | 0 => .error .outOfFuel
  | fuel + 1 => do
    let (m, st) ← self.matchTok .Function
    if m then do
      let (mi, st1) ← st.matchTok .Identifier
      if ¬ mi then .error (st1.unexpected_token "identifier")
      else do
        let identifier := Expression.IdentifierExpr st1.prev_token.lexeme
        let (mp, st2) ← st1.matchTok .LeftParen
        if ¬ mp then .error (st2.unexpected_token "(")
        else do
          let (params, st3) ← parse_params_loop fuel [] st2
          let (mr, st4) ← st3.matchTok .RightParen
          if ¬ mr then .error (st4.unexpected_token ")")
          else do
            let (block, st5) ← parse_block fuel st4
            .ok (.FunctionExpr identifier params block, st5)
    else parse_return_expr fuel st

/-- The parameter-collecting loop of `Parser.parse_function_expr`: commas are
skipped, a closing parenthesis stops, anything else is parsed as an
expression. -/
def parse_params_loop (fuel : Nat) (params : List Expression) (self : Parser) :
    Except PainError (List Expression × Parser) :=
  match fuel with
  | 0 => .error .outOfFuel
  | fuel + 1 =>
    if self.is_at_end then .ok (params, self)
    else do
      let (mc, st) ← self.matchTok .Comma
      if mc then parse_params_loop fuel params st
      else if st.peek .RightParen then .ok (params, st)
      else do
        let (e, st1) ← parse_expr fuel 0 st
        parse_params_loop fuel (params ++ [e]) st1

/-- `Parser.parse_return_expr`; its `else` arm is the bare
`self.unexpected_token()` call ending the dispatch chain. -/
def parse_return_expr (fuel : Nat) (self : Parser) : Except PainError (Expression × Parser) :=
  match fuel with
  | 0 => .error .outOfFuel
  | fuel + 1 => do
    let (m, st) ← self.matchTok .Return
    if m then do
      let (e, st1) ← parse_expr fuel 0 st
      let (m1, st2) ← st1.matchTok .Semicolon
      if ¬ m1 then .error (st2.unexpected_token ";")
      else .ok (.ReturnExpr e, st2)
    else .error (st.unexpected_token "primary expression")

end

/-- `Parser.parse`: parse one expression at a time until end of input,
accumulating `parsed_trees`. -/
def parse (fuel : Nat) (self : Parser) (parsed_trees : List Expression) :
    Except PainError (List Expression) :=
  match fuel with
  | 0 => .error .outOfFuel
  | fuel + 1 =>
    if self.is_at_end then .ok parsed_trees
    else do
      let (expr, st) ← parse_expr fuel 0 self
      parse fuel st (parsed_trees ++ [expr])

/-- One line's run as `main.repl` performs it: a fresh `Lexer` over the line,
a fresh `Parser` over that lexer, then `parser.parse()`.  The fuel
`16 * (length + 2)` far exceeds the recursion depth reachable on the line
(every parser call either consumes fuel along the fixed dispatch chain of at
most eleven functions or first consumes a token, and tokens are at most one
per character). -/
def parseSource (s : String) : Except PainError (List Expression) := do
  let p ← parserInit (lexInit s)
  parse (16 * (s.length + 2)) p []

/-- What the body of `main.repl`'s `while` loop observes for one line: the
printed trees on success, the printed-and-caught `UnexpectedToken` diagnostic,
or any other exception escaping the `try`/`except UnexpectedToken` block. -/
inductive ReplOutcome where
  | trees (ts : List Expression)
  | caught (row col : Nat) (expected got : String)
  | crash (e : PainError)

/-- One iteration of `main.repl` on a line of input. -/
def replLine (line : String) : ReplOutcome :=
  match parseSource line with
  | .ok ts => .trees ts
  | .error (.unexpectedToken row col expected got) => .caught row col expected got
  | .error e => .crash e

/-- Drains the scanner: the sequence of tokens `Lexer.next` yields before the
first end-of-input token (fuel-indexed like the parser; one pull consumes at
least one character, so `length + 1` pulls always suffice). -/
def tokenize (fuel : Nat) (lx : Lexer) : Except PainError (List Token) :=
  match fuel with
  | 0 => .error .outOfFuel
  | fuel + 1 => do
    let (tok, lx1) ← lx.next
    if tok.type = .Eof then .ok []
    else do
      let ts ← tokenize fuel lx1
      .ok (tok :: ts)

/-- The operator table exactly as claim C3 states it: `and`, `or`, `not` and
`==` at precedence 0, `<`, `<=`, `>`, `>=` at precedence 1, `+`, `-` at 6,
`*`, `/` at 7 — all left-associative — and `^` at 8, right-associative.
Written from the claim's words, to be compared with `ALLOWED_OPS`. -/
def claimedOp (s : String) : Option (Nat × Associativity) :=
  if s = "and" ∨ s = "or" ∨ s = "not" ∨ s = "==" then some (0, .Left)
  else if s = "<" ∨ s = "<=" ∨ s = ">" ∨ s = ">=" then some (1, .Left)
  else if s = "+" ∨ s = "-" then some (6, .Left)
  else if s = "*" ∨ s = "/" then some (7, .Left)
  else if s = "^" then some (8, .Right)
  else none

mutual

/-- Modelled from claim C3's wording: parse one primary operand, then run the
folding loop against the claimed operator table. -/
def parse_expr_claimed (fuel min_precedence : Nat) (self : Parser) :
    Except PainError (Expression × Parser) :=
  match fuel with
  | 0 => .error .outOfFuel
  | fuel + 1 => do
    let (lhs, st) ← parse_primary fuel self
    parse_expr_claimed_loop fuel min_precedence lhs st

/-- Modelled from claim C3's wording: while tokens remain and the current
token's lexeme is a key of the claimed table with table precedence at least
the threshold, consume it, recursively parse the right-hand side with new
threshold equal to that operator's precedence plus one exactly when it is
right-associative, and fold left and right sides into a `BinaryExpr` with the
consumed operator. -/
def parse_expr_claimed_loop (fuel min_precedence : Nat) (lhs : Expression) (self : Parser) :
    Except PainError (Expression × Parser) :=
  match fuel with
  | 0 => .error .outOfFuel
  | fuel + 1 =>
    if self.is_at_end then .ok (lhs, self)
    else
      let op := self.curr_token.lexeme
      match claimedOp op with
      | none => .ok (lhs, self)
      | some (p, a) =>
        if p < min_precedence then .ok (lhs, self)
        else do
          let st ← self.advance
          let (rhs, st1) ← parse_expr_claimed fuel (if a = .Right then p + 1 else p) st
          parse_expr_claimed_loop fuel min_precedence (.BinaryExpr lhs op rhs) st1

end

theorem opsAgree (s : String) :
    (ALLOWED_OPS s).map (fun o => (o.precedence, o.associativity)) = claimedOp s := by
  by_cases h1 : s = "or"
  · subst h1; rfl
  by_cases h2 : s = "and"
  · subst h2; rfl
  by_cases h3 : s = "not"
  · subst h3; rfl
  by_cases h4 : s = "=="
  · subst h4; rfl
  by_cases h5 : s = "<"
  · subst h5; rfl
  by_cases h6 : s = "<="
  · subst h6; rfl
  by_cases h7 : s = ">"
  · subst h7; rfl
  by_cases h8 : s = ">="
  · subst h8; rfl
  by_cases h9 : s = "+"
  · subst h9; rfl
  by_cases h10 : s = "-"
  · subst h10; rfl
  by_cases h11 : s = "*"
  · subst h11; rfl
  by_cases h12 : s = "/"
  · subst h12; rfl
  by_cases h13 : s = "^"
  · subst h13; rfl
  simp [ALLOWED_OPS, claimedOp, h1, h2, h3, h4, h5, h6, h7, h8, h9, h10, h11, h12, h13]

theorem parse_expr_agrees_claimed : ∀ fuel,
    (∀ m self, parse_expr fuel m self = parse_expr_claimed fuel m self) ∧
    (∀ m lhs self, parse_expr_loop fuel m lhs self = parse_expr_claimed_loop fuel m lhs self) := by
  intro fuel
  induction fuel with
  | zero => exact ⟨fun _ _ => rfl, fun _ _ _ => rfl⟩
  | succ f ih =>
    refine ⟨fun m self => ?_, fun m lhs self => ?_⟩
    · simp only [parse_expr, parse_expr_claimed]
      cases hp : parse_primary f self with
      | error e => rfl
      | ok v => exact ih.2 m v.1 v.2
    · simp only [parse_expr_loop, parse_expr_claimed_loop]
      cases hend : self.is_at_end
      · simp only [Bool.false_eq_true, if_false]
        have hagree := opsAgree self.curr_token.lexeme
        cases hop : ALLOWED_OPS self.curr_token.lexeme with
        | none =>
          rw [hop] at hagree
          rw [← hagree]
          rfl
        | some o =>
          rw [hop] at hagree
          rw [← hagree]
          simp only [Option.map_some']
          by_cases hprec : o.precedence < m
          · simp [hprec]
          · simp only [hprec, if_false]
            cases hadv : self.advance with
            | error e => rfl
            | ok st =>
              simp only [bind, Except.bind]
              rw [ih.1]
              cases parse_expr_claimed f
                  (if o.associativity = .Right then o.precedence + 1 else o.precedence) st with
              | error e => rfl
              | ok v => exact ih.2 m (.BinaryExpr lhs self.curr_token.lexeme v.1) v.2
      · simp

theorem lookahead_equal_ok {self : Lexer} {a : TokenType} {la : String} {b : TokenType}
    {lb : String} {tok : Token} {st' : Lexer}
    (h : self.lookahead_equal a la b lb = .ok (tok, st')) :
    tok = ⟨a, la⟩ ∨ tok = ⟨b, lb⟩ := by
  simp only [Lexer.lookahead_equal] at h
  split at h
  · exact absurd h (by simp)
  · split at h <;> simp only [Except.ok.injEq, Prod.mk.injEq] at h
    · exact Or.inl h.1.symm
    · exact Or.inr h.1.symm

/-- Invariant of every successful pull from the scanner: the boolean-not token
kind is never produced, and an end-of-input token is produced only with the
cursor at (or past) the end of the source. -/
theorem next_go_ok_spec :
    ∀ (n : Nat) (self : Lexer) (tok : Token) (st' : Lexer),
      self.source.length - self.curr_index ≤ n →
      Lexer.next_go n self = .ok (tok, st') →
      tok.type ≠ .Not ∧ (tok.type = .Eof → st'.source.length ≤ st'.curr_index) := by
  intro n
  induction n with
  | zero =>
    intro self tok st' hn heq
    simp only [Lexer.next_go, Except.ok.injEq, Prod.mk.injEq] at heq
    obtain ⟨h1, h2⟩ := heq
    subst h1; subst h2
    exact ⟨by decide, fun _ => by omega⟩
  | succ n ih =>
    intro self tok st' hn heq
    rw [Lexer.next_go] at heq
    split at heq
    · -- cursor read empty: the end-of-input token with the state unchanged
      rename_i hc
      have hend : self.source.length ≤ self.curr_index := by
        simp only [Lexer.curr, List.get?_eq_none] at hc
        exact hc
      simp only [Except.ok.injEq, Prod.mk.injEq] at heq
      obtain ⟨h1, h2⟩ := heq
      subst h1; subst h2
      exact ⟨by decide, fun _ => hend⟩
    · -- a character was read: walk the dispatch chain arm by arm
      rename_i c hc
      by_cases h1 : c = '('
      · rw [if_pos h1] at heq
        simp at heq
        obtain ⟨ha, hb⟩ := heq; subst ha; subst hb
        exact ⟨by simp, fun ht => absurd ht (by simp)⟩
      rw [if_neg h1] at heq
      by_cases h2 : c = ')'
      · rw [if_pos h2] at heq
        simp at heq
        obtain ⟨ha, hb⟩ := heq; subst ha; subst hb
        exact ⟨by simp, fun ht => absurd ht (by simp)⟩
      rw [if_neg h2] at heq
      by_cases h3 : c = '['
      · rw [if_pos h3] at heq
        simp at heq
        obtain ⟨ha, hb⟩ := heq; subst ha; subst hb
        exact ⟨by simp, fun ht => absurd ht (by simp)⟩
      rw [if_neg h3] at heq
      by_cases h4 : c = ']'
      · rw [if_pos h4] at heq
        simp at heq
        obtain ⟨ha, hb⟩ := heq; subst ha; subst hb
        exact ⟨by simp, fun ht => absurd ht (by simp)⟩
      rw [if_neg h4] at heq
      by_cases h5 : c = '\x7b'
      · rw [if_pos h5] at heq
        simp at heq
        obtain ⟨ha, hb⟩ := heq; subst ha; subst hb
        exact ⟨by simp, fun ht => absurd ht (by simp)⟩
      rw [if_neg h5] at heq
      by_cases h6 : c = '\x7d'
      · rw [if_pos h6] at heq
        simp at heq
        obtain ⟨ha, hb⟩ := heq; subst ha; subst hb
        exact ⟨by simp, fun ht => absurd ht (by simp)⟩
      rw [if_neg h6] at heq
      by_cases h7 : c = '='
      · rw [if_pos h7] at heq
        rcases lookahead_equal_ok heq with h | h <;>
          (subst h; exact ⟨by simp, fun ht => absurd ht (by simp)⟩)
      rw [if_neg h7] at heq
      by_cases h8 : c = '>'
      · rw [if_pos h8] at heq
        rcases lookahead_equal_ok heq with h | h <;>
          (subst h; exact ⟨by simp, fun ht => absurd ht (by simp)⟩)
      rw [if_neg h8] at heq
      by_cases h9 : c = '<'
      · rw [if_pos h9] at heq
        rcases lookahead_equal_ok heq with h | h <;>
          (subst h; exact ⟨by simp, fun ht => absurd ht (by simp)⟩)
      rw [if_neg h9] at heq
      by_cases h10 : c = '+'
      · rw [if_pos h10] at heq
        rcases lookahead_equal_ok heq with h | h <;>
          (subst h; exact ⟨by simp, fun ht => absurd ht (by simp)⟩)
      rw [if_neg h10] at heq
      by_cases h11 : c = '-'
      · rw [if_pos h11] at heq
        rcases lookahead_equal_ok heq with h | h <;>
          (subst h; exact ⟨by simp, fun ht => absurd ht (by simp)⟩)
      rw [if_neg h11] at heq
      by_cases h12 : c = '*'
      · rw [if_pos h12] at heq
        rcases lookahead_equal_ok heq with h | h <;>
          (subst h; exact ⟨by simp, fun ht => absurd ht (by simp)⟩)
      rw [if_neg h12] at heq
      by_cases h13 : c = '/'
      · rw [if_pos h13] at heq
        rcases lookahead_equal_ok heq with h | h <;>
          (subst h; exact ⟨by simp, fun ht => absurd ht (by simp)⟩)
      rw [if_neg h13] at heq
      by_cases h14 : c = '^'
      · rw [if_pos h14] at heq
        rcases lookahead_equal_ok heq with h | h <;>
          (subst h; exact ⟨by simp, fun ht => absurd ht (by simp)⟩)
      rw [if_neg h14] at heq
      by_cases h15 : c = '"'
      · rw [if_pos h15] at heq
        rcases hs : self.a_string with ⟨result, st1⟩
        rw [hs] at heq
        simp at heq
        obtain ⟨ha, hb⟩ := heq; subst ha; subst hb
        exact ⟨by simp, fun ht => absurd ht (by simp)⟩
      rw [if_neg h15] at heq
      by_cases h16 : c.isDigit = true
      · rw [if_pos h16] at heq
        rcases hnum : self.a_number with ⟨result, is_float, st1⟩
        rw [hnum] at heq
        cases is_float <;>
          (simp at heq
           obtain ⟨ha, hb⟩ := heq; subst ha; subst hb
           exact ⟨by simp, fun ht => absurd ht (by simp)⟩)
      rw [if_neg h16] at heq
      by_cases h17 : c = ':'
      · rw [if_pos h17] at heq
        simp at heq
        obtain ⟨ha, hb⟩ := heq; subst ha; subst hb
        exact ⟨by simp, fun ht => absurd ht (by simp)⟩
      rw [if_neg h17] at heq
      by_cases h18 : c = ';'
      · rw [if_pos h18] at heq
        simp at heq
        obtain ⟨ha, hb⟩ := heq; subst ha; subst hb
        exact ⟨by simp, fun ht => absurd ht (by simp)⟩
      rw [if_neg h18] at heq
      by_cases h19 : c = '\n'
      · rw [if_pos h19] at heq
        exact ih _ tok st' (by simp; omega) heq
      rw [if_neg h19] at heq
      by_cases h20 : c = ','
      · rw [if_pos h20] at heq
        simp at heq
        obtain ⟨ha, hb⟩ := heq; subst ha; subst hb
        exact ⟨by simp, fun ht => absurd ht (by simp)⟩
      rw [if_neg h20] at heq
      by_cases h21 : c = ' '
      · rw [if_pos h21] at heq
        exact ih _ tok st' (by simp; omega) heq
      rw [if_neg h21] at heq
      by_cases h22 : c.isAlpha = true
      · rw [if_pos h22] at heq
        rcases hid : self.an_identifier with ⟨identifier, st1⟩
        rw [hid] at heq
        dsimp only [] at heq
        split at heq <;>
          (simp at heq
           obtain ⟨ha, hb⟩ := heq; subst ha; subst hb
           exact ⟨by simp, fun ht => absurd ht (by simp)⟩)
      rw [if_neg h22] at heq
      simp at heq
      obtain ⟨ha, hb⟩ := heq; subst ha; subst hb
      exact ⟨by simp, fun ht => absurd ht (by simp)⟩

/-- At end of input `Lexer.next` returns the end-of-input token and leaves
the state untouched. -/
theorem next_at_end (self : Lexer) (h : self.source.length ≤ self.curr_index) :
    self.next = .ok (⟨.Eof, "Eof"⟩, self) := by
  unfold Lexer.next
  have h0 : self.source.length - self.curr_index = 0 := by omega
  rw [h0]
  rfl

/-- `next_go_ok_spec` at the exact measure `Lexer.next` passes. -/
theorem next_ok_spec (self : Lexer) (tok : Token) (st' : Lexer)
    (h : self.next = .ok (tok, st')) :
    tok.type ≠ .Not ∧ (tok.type = .Eof → st'.source.length ≤ st'.curr_index) :=
  next_go_ok_spec _ self tok st' le_rfl h

/-- Claim C1: the claim states that a chain of a same-precedence
left-associative operator folds left-nested and that `^` nests right.  The
code does the opposite: `parse_expr` increments the recursive threshold for
right-associative operators, where standard precedence climbing increments it
for left-associative ones, so `"2 - 3 - 2"` parses right-nested and
`"2 ^ 3 ^ 2"` parses left-nested.  This theorem evaluates the code at the
claim's own example inputs, exhibiting the divergence from the associativity
the operator table itself declares. -/
theorem C1_associativity_inverted :
    parseSource "2 - 3 - 2" =
      .ok [.BinaryExpr (.IntExpr 2) "-" (.BinaryExpr (.IntExpr 3) "-" (.IntExpr 2))] ∧
    parseSource "2 ^ 3 ^ 2" =
      .ok [.BinaryExpr (.BinaryExpr (.IntExpr 2) "^" (.IntExpr 3)) "^" (.IntExpr 2)] :=
  ⟨rfl, rfl⟩

/-- Claim C2: the claim states that `Lexer.next` always returns a token and
never raises.  The unmatched-character half holds — an unmatched character
such as `'$'` is consumed, not skipped, and returned as a one-character
Illegal token — but totality fails: on the source `"="` the very first pull
advances past the `'='` and then reads `self.curr()` at end of input, raising
`IndexError`. -/
theorem C2_scanner_totality_fails :
    (lexInit "=").next = .error .indexError ∧
    (lexInit "$").next = .ok (⟨.Illegal, "$"⟩, ⟨['$'], 1, 0, 1⟩) :=
  ⟨rfl, rfl⟩

/-- Claim C3: `parse_expr` with a minimum-precedence threshold parses one
primary operand, then, while the current token's lexeme is a key in the fixed
operator table — `and`, `or`, `not`, `==` at precedence 0, `<`, `<=`, `>`,
`>=` at 1, `+`, `-` at 6, `*`, `/` at 7, all left-associative; `^` at 8,
right-associative — and its table precedence is at least the threshold,
consumes it, recursively parses the right-hand side with new threshold equal
to that operator's precedence plus one exactly when it is right-associative,
and folds left and right sides into a `BinaryExpr` with the consumed
operator: the code's table projects onto the claimed table, and the code's
`parse_expr` equals the claim's algorithm at every fuel, threshold and
state. -/
theorem C3_precedence_climbing_steps :
    (∀ s, (ALLOWED_OPS s).map (fun o => (o.precedence, o.associativity)) = claimedOp s) ∧
    ∀ fuel min_precedence self,
      parse_expr fuel min_precedence self = parse_expr_claimed fuel min_precedence self :=
  ⟨opsAgree, fun fuel m self => (parse_expr_agrees_claimed fuel).1 m self⟩

/-- Claim C4: `"1 + 2 * 3"` parses with `*` binding tighter than `+`. -/
theorem C4_precedence_levels :
    parseSource "1 + 2 * 3" =
      .ok [.BinaryExpr (.IntExpr 1) "+" (.BinaryExpr (.IntExpr 2) "*" (.IntExpr 3))] := rfl

/-- Claim C5: the claim states that an input ending mid-expression such as
`"1 +"` fails with exactly one `UnexpectedToken` diagnostic whose
actual-lexeme is the end-of-input marker, and that the caller never observes
a crash of another kind.  On `"1 +"` itself the scanner's lookahead past the
trailing `'+'` raises `IndexError` — a crash that is not the documented
diagnostic; with any character after the operator (here a trailing space) the
parse does fail with the claimed diagnostic, whose actual-lexeme is the
`Eof` token's lexeme. -/
theorem C5_mid_expression_ending :
    parseSource "1 +" = .error .indexError ∧
    parseSource "1 + " = .error (.unexpectedToken 0 4 "primary expression" "Eof") :=
  ⟨rfl, rfl⟩

/-- Claim C6: `"var x = 5;"` parses to a `VarExpr` of the identifier leaf `x`
and initializer `IntExpr 5`; `"var 5 = x;"` fails with an expected-identifier
diagnostic; and in general, whenever a `var` or `const` statement's parsed
left-hand side is anything but an identifier leaf, `parse_var` respectively
`parse_const` raises the expected-identifier diagnostic at parse time. -/
theorem C6_var_const_identifier_contract :
    parseSource "var x = 5;" = .ok [.VarExpr (.IdentifierExpr "x") (.IntExpr 5)] ∧
    parseSource "var 5 = x;" = .error (.unexpectedToken 0 7 "identifier" "=") ∧
    (∀ (fuel : Nat) (self st1 st2 : Parser) (lhs : Expression),
      self.curr_token.type = .Var →
      self.advance = .ok st1 →
      parse_expr fuel 0 st1 = .ok (lhs, st2) →
      lhs.isIdent = false →
      parse_var (fuel + 1) self = .error (st2.unexpected_token "identifier")) ∧
    (∀ (fuel : Nat) (self st1 st2 : Parser) (lhs : Expression),
      self.curr_token.type = .Const →
      self.advance = .ok st1 →
      parse_expr fuel 0 st1 = .ok (lhs, st2) →
      lhs.isIdent = false →
      parse_const (fuel + 1) self = .error (st2.unexpected_token "identifier")) := by
  refine ⟨rfl, rfl, ?_, ?_⟩
  · intro fuel self st1 st2 lhs hv hadv hpe hid
    have hm : self.matchTok .Var = .ok (true, st1) := by
      simp [Parser.matchTok, hv, hadv, bind, Except.bind, pure, Except.pure]
    simp [parse_var, hm, hpe, hid, bind, Except.bind]
  · intro fuel self st1 st2 lhs hv hadv hpe hid
    have hm : self.matchTok .Const = .ok (true, st1) := by
      simp [Parser.matchTok, hv, hadv, bind, Except.bind, pure, Except.pure]
    simp [parse_const, hm, hpe, hid, bind, Except.bind]

/-- Witness for C6: the general `var` clause applied at a concrete state
whose current token is `var` and whose following expression parses to the
non-identifier leaf `IntExpr 5`. -/
theorem C6_witness :
    parse_var 21 ⟨lexInit "5", ⟨.Var, "var"⟩, ⟨.Var, "var"⟩⟩ =
      .error (.unexpectedToken 0 1 "identifier" "Eof") :=
  C6_var_const_identifier_contract.2.2.1 20
    ⟨lexInit "5", ⟨.Var, "var"⟩, ⟨.Var, "var"⟩⟩
    ⟨⟨['5'], 1, 0, 1⟩, ⟨.Int, "5"⟩, ⟨.Var, "var"⟩⟩
    ⟨⟨['5'], 1, 0, 1⟩, ⟨.Eof, "Eof"⟩, ⟨.Int, "5"⟩⟩
    (.IntExpr 5) rfl rfl rfl rfl

/-- Claim C7: once `Lexer.next` has returned the end-of-input token, every
subsequent call returns the end-of-input token again, without error and with
the scanner state (offset, row, column) unchanged: the state the Eof-yielding
pull returns is a fixed point of `next`. -/
theorem C7_eof_idempotent (self : Lexer) (tok : Token) (st' : Lexer)
    (h : self.next = .ok (tok, st')) (he : tok.type = .Eof) :
    st'.next = .ok (⟨.Eof, "Eof"⟩, st') :=
  next_at_end st' ((next_ok_spec self tok st' h).2 he)

/-- Witness for C7 at the empty source. -/
theorem C7_witness :
    (lexInit "").next = .ok (⟨.Eof, "Eof"⟩, lexInit "") :=
  C7_eof_idempotent (lexInit "") ⟨.Eof, "Eof"⟩ (lexInit "") rfl rfl

/-- Claim C8: on `"1.2.3"` the scanner emits a single Float token carrying
the whole multi-dot lexeme; `parse` then raises the `ValueError` of the
`float()` conversion — a kind distinct from the `UnexpectedToken` diagnostic
— and it escapes `repl`'s `except UnexpectedToken` handler as a crash. -/
theorem C8_multidot_float_valueerror :
    tokenize 8 (lexInit "1.2.3") = .ok [⟨.Float, "1.2.3"⟩] ∧
    parseSource "1.2.3" = .error (.valueError "1.2.3") ∧
    replLine "1.2.3" = .crash (.valueError "1.2.3") :=
  ⟨rfl, rfl, rfl⟩

/-- Claim C9: no successful pull from the scanner ever carries the
boolean-not token kind; the text `"not"` scans as an Identifier token (it is
absent from the keyword match); and, because the parser looks operators up by
lexeme, that identifier acts in infix position as a precedence-0 binary
operator: `"a not b"` parses as `BinaryExpr(not, a, b)`. -/
theorem C9_not_token_never_produced :
    (∀ (self : Lexer) (tok : Token) (st' : Lexer),
      self.next = .ok (tok, st') → tok.type ≠ .Not) ∧
    (lexInit "not").next = .ok (⟨.Identifier, "not"⟩, ⟨"not".data, 3, 0, 3⟩) ∧
    parseSource "a not b" =
      .ok [.BinaryExpr (.IdentifierExpr "a") "not" (.IdentifierExpr "b")] :=
  ⟨fun self tok st' h => (next_ok_spec self tok st' h).1, rfl, rfl⟩

/-- Witness for C9: the never-a-not-token clause applied to the pull that
scans the source `"x"`. -/
theorem C9_witness : (⟨.Identifier, "x"⟩ : Token).type ≠ .Not :=
  C9_not_token_never_produced.1 (lexInit "x") ⟨.Identifier, "x"⟩ ⟨['x'], 1, 0, 1⟩ rfl

/-- Claim C10: statement forms are reachable in operand position through the
primary-expression chain: `"1 + return 2;"` parses successfully, and the
resulting tree is a BinaryExpression whose right child is a ReturnStatement
node rather than a top-level statement. -/
theorem C10_statement_in_operand_position :
    parseSource "1 + return 2;" =
      .ok [.BinaryExpr (.IntExpr 1) "+" (.ReturnExpr (.IntExpr 2))] := rfl

end Pain
